import Mathlib

/-!
# Verification of the Lunabotics camera streaming core

Shallow embedding of the framing protocol and connection-resilience logic of
`client_cv.py` and `server_cv.py`: the length-prefixed frame framer
(`send_frame` / `struct.pack("!L", ...)` and `struct.unpack`), the exact-read
loop `recv_all`, the bounded-retry `connect_to_server`, and the two driving
loops (client capture loop and server receive/display loop).

Bytes are modelled as `Nat` values (each `< 256` where produced by the code);
Python `int` parameters that may be negative (`n` in `recv_all`,
`max_attempts`) are modelled as `Int`.
-/

namespace LunaCam

/-! ## Frame framer

`client_cv.py`, `send_frame`: `message_size = struct.pack("!L", len(data))`,
then `sendall(message_size); sendall(data)`.  `struct.pack("!L", n)` yields
the 4-byte big-endian encoding of `n` and raises `struct.error` when
`n > 2^32 - 1`; the raise happens before any `sendall`, so nothing is written
in that case.  `server_cv.py`, `receive_frame`: `struct.unpack('!L', size_data)`
on the 4 header bytes. -/

/-- The 4 bytes of `struct.pack("!L", n)` (big-endian uint32), for
`n ≤ 2^32 - 1`. -/
def packBE32 (n : Nat) : List Nat :=
  [n / 2 ^ 24 % 256, n / 2 ^ 16 % 256, n / 2 ^ 8 % 256, n % 256]

/-- `struct.unpack('!L', b)[0]` on a 4-byte header `b` (the only shape
`receive_frame` feeds it, since `recv_all(conn, 4)` returns 4 bytes or
`None`).  Other lengths would raise in Python; they return 0 here and are
never used by the theorems. -/
def unpackBE32 : List Nat → Nat
  | [b0, b1, b2, b3] => ((b0 * 256 + b1) * 256 + b2) * 256 + b3
  | _ => 0

/-- Outcome of `send_frame` on a healthy socket: either the full wire message
was written (header then payload, two consecutive `sendall` calls), or
`struct.pack` raised `struct.error` before any write. -/
inductive SendResult
  | sent (wire : List Nat)
  | packError
  deriving DecidableEq, Repr

/-- `send_frame` (client_cv.py): pack the length header, then send header and
payload.  `struct.pack("!L", len(data))` raises when
`len(data) > 2^32 - 1`. -/
def sendFrame (payload : List Nat) : SendResult :=
  if payload.length ≤ 2 ^ 32 - 1 then
    SendResult.sent (packBE32 payload.length ++ payload)
  else
    SendResult.packError

/-- Bytes actually written to the connection by `send_frame`: the wire message
on success, nothing when `struct.pack` raised (the raise precedes both
`sendall` calls). -/
def bytesWritten : SendResult → List Nat
  | SendResult.sent wire => wire
  | SendResult.packError => []

/-- Claim C1: for every payload `p` with `len(p) ≤ 2^32 - 1`, the encoded wire
message is the 4-byte big-endian encoding of `len(p)` followed by `p`;
unpacking the first 4 bytes gives `len(p)` back and the bytes after the header
are exactly `p`. -/
theorem framing_roundtrip (p : List Nat) (h : p.length ≤ 2 ^ 32 - 1) :
    sendFrame p = SendResult.sent (packBE32 p.length ++ p) ∧
    unpackBE32 ((packBE32 p.length ++ p).take 4) = p.length ∧
    (packBE32 p.length ++ p).drop 4 = p := by
  refine ⟨by simp only [sendFrame, if_pos h], ?_, by simp [packBE32]⟩
  simp only [packBE32, List.cons_append, List.nil_append, List.take_succ_cons,
    List.take_zero, unpackBE32]
  omega

theorem framing_roundtrip_witness :
    ([9, 8, 7] : List Nat).length ≤ 2 ^ 32 - 1 ∧
    (sendFrame [9, 8, 7] = SendResult.sent (packBE32 3 ++ [9, 8, 7]) ∧
      unpackBE32 ((packBE32 3 ++ [9, 8, 7]).take 4) = 3 ∧
      (packBE32 3 ++ [9, 8, 7]).drop 4 = [9, 8, 7]) :=
  ⟨by norm_num, framing_roundtrip [9, 8, 7] (by norm_num)⟩

/-- Claim C8: for every payload longer than `2^32 - 1` bytes, `send_frame`
fails at `struct.pack` and writes nothing to the connection. -/
theorem oversized_payload_rejected (p : List Nat) (h : 2 ^ 32 - 1 < p.length) :
    sendFrame p = SendResult.packError ∧ bytesWritten (sendFrame p) = [] := by
  have hp : sendFrame p = SendResult.packError := by
    simp only [sendFrame, if_neg (by omega : ¬p.length ≤ 2 ^ 32 - 1)]
  exact ⟨hp, by rw [hp]; rfl⟩

theorem oversized_payload_rejected_witness :
    2 ^ 32 - 1 < (List.replicate (2 ^ 32) (0 : Nat)).length ∧
    (sendFrame (List.replicate (2 ^ 32) (0 : Nat)) = SendResult.packError ∧
      bytesWritten (sendFrame (List.replicate (2 ^ 32) (0 : Nat))) = []) := by
  have h : 2 ^ 32 - 1 < (List.replicate (2 ^ 32) (0 : Nat)).length := by
    rw [List.length_replicate]; omega
  exact ⟨h, oversized_payload_rejected (List.replicate (2 ^ 32) (0 : Nat)) h⟩

/-! ## Stream reader: `recv_all` (server_cv.py)

```
data = bytearray()
while len(data) < n:
    try:
        packet = conn.recv(n - len(data))
        if not packet: return None
        data.extend(packet)
    except socket.error as e: ...; return None
return bytes(data)
```

The connection is modelled as the finite schedule of what successive `recv`
calls deliver: a list of nonempty byte chunks (a `recv` asking for `k` bytes
while the head chunk holds more returns only `k` of them, the rest staying
buffered for the next call — in that situation `len(data)` has reached `n`
and the loop exits), followed by a terminal condition once the chunks are
exhausted: the peer closed (`recv` returns `b''`) or the transport faulted
(`recv` raises `socket.error`).  `n` is a Python `int`, hence `Int`. -/

/-- Terminal condition of the modelled stream once all scheduled chunks have
been delivered. -/
inductive Term
  | closed
  | ioError
  deriving DecidableEq, Repr

/-- Observable outcome of one `recv_all` call: the returned value
(`bytes` or `None`) and how many `conn.recv` calls were performed. -/
structure RecvAllResult where
  result : Option (List Nat)
  recvCalls : Nat
  deriving DecidableEq, Repr

/-- The `while len(data) < n` loop of `recv_all`, one recursive step per
`conn.recv` call.  On the head chunk `c`, `recv(n - len(data))` returns
`c.take k` with `k = n - len(data)`; when `c.length ≤ k` the whole chunk is
consumed and the loop repeats, otherwise `data` has reached exactly `n` bytes
and the loop exits on the next test.  An exhausted schedule makes `recv`
return `b''` (peer closed, `return None`) or raise `socket.error`
(also `return None`). -/
def recvAllGo (n : Int) : List (List Nat) → Term → List Nat → RecvAllResult
  | [], term, data =>
    if (data.length : Int) < n then
      match term with
      | Term.closed => ⟨none, 1⟩
      | Term.ioError => ⟨none, 1⟩
    else ⟨some data, 0⟩
  | c :: rest, term, data =>
    if (data.length : Int) < n then
      if (c.take (n - (data.length : Int)).toNat).isEmpty then ⟨none, 1⟩
      else if c.length ≤ (n - (data.length : Int)).toNat then
        let r := recvAllGo n rest term (data ++ c.take (n - (data.length : Int)).toNat)
        ⟨r.result, r.recvCalls + 1⟩
      else ⟨some (data ++ c.take (n - (data.length : Int)).toNat), 1⟩
    else ⟨some data, 0⟩

/-- `recv_all(conn, n)` with the connection scheduled to deliver `chunks`
and then hit `term`. -/
def recv_all (n : Int) (chunks : List (List Nat)) (term : Term) : RecvAllResult :=
  recvAllGo n chunks term []

/-- Total number of bytes the schedule delivers. -/
def chunksTotal (chunks : List (List Nat)) : Nat :=
  (chunks.map List.length).sum

theorem chunksTotal_nil : chunksTotal [] = 0 := rfl

theorem chunksTotal_cons (c : List Nat) (rest : List (List Nat)) :
    chunksTotal (c :: rest) = c.length + chunksTotal rest := by
  simp [chunksTotal]

/-- The loop is insensitive to the terminal condition: peer close and
`socket.error` produce identical observable results (`recv_all` collapses
both to `None`). -/
theorem recvAllGo_term_irrelevant (n : Int) :
    ∀ (chunks : List (List Nat)) (t₁ t₂ : Term) (data : List Nat),
      recvAllGo n chunks t₁ data = recvAllGo n chunks t₂ data := by
  intro chunks
  induction chunks with
  | nil =>
    intro t₁ t₂ data
    simp only [recvAllGo]
    cases t₁ <;> cases t₂ <;> rfl
  | cons c rest ih =>
    intro t₁ t₂ data
    simp only [recvAllGo, ih t₁ t₂]

/-- Enough-delivery lemma: when the schedule carries at least
`n - len(data)` further bytes in nonempty chunks, the loop returns `data`
extended by exactly the next `n - len(data)` scheduled bytes, in order. -/
theorem recvAllGo_result_of_enough (term : Term) :
    ∀ (chunks : List (List Nat)) (data : List Nat) (n : Int),
      (∀ c ∈ chunks, c ≠ []) →
      n ≤ (data.length : Int) + (chunksTotal chunks : Int) →
      (recvAllGo n chunks term data).result =
        some (data ++ chunks.flatten.take (n - (data.length : Int)).toNat) := by
  intro chunks
  induction chunks with
  | nil =>
    intro data n _ htot
    rw [chunksTotal_nil] at htot
    have hle : ¬((data.length : Int) < n) := by omega
    simp only [recvAllGo, if_neg hle, List.flatten_nil]
    rw [show (n - (data.length : Int)).toNat = 0 by omega]
    simp
  | cons c rest ih =>
    intro data n hne htot
    have hc : c ≠ [] := hne c (List.mem_cons_self c rest)
    have htot' : n ≤ (data.length : Int) + (c.length : Int) + (chunksTotal rest : Int) := by
      rw [chunksTotal_cons] at htot; push_cast at htot; omega
    by_cases hlt : (data.length : Int) < n
    · have hk1 : 1 ≤ (n - (data.length : Int)).toNat := by omega
      have hpack : ¬(c.take (n - (data.length : Int)).toNat).isEmpty = true := by
        cases c with
        | nil => exact absurd rfl hc
        | cons b bs =>
          rw [show (n - (data.length : Int)).toNat =
            ((n - (data.length : Int)).toNat - 1) + 1 by omega]
          simp [List.take_succ_cons]
      by_cases hfit : c.length ≤ (n - (data.length : Int)).toNat
      · have htk : c.take (n - (data.length : Int)).toNat = c :=
          List.take_of_length_le hfit
        have hceq : ¬c.isEmpty = true := fun hh => hc (List.isEmpty_iff.mp hh)
        simp only [recvAllGo, if_pos hlt, htk, if_neg hceq, if_pos hfit]
        rw [ih (data ++ c) n (fun x hx => hne x (List.mem_cons_of_mem c hx))
          (by simp only [List.length_append]; push_cast; omega)]
        have harith : (n - (((data ++ c).length : Nat) : Int)).toNat
            = (n - (data.length : Int)).toNat - c.length := by
          simp only [List.length_append]; push_cast; omega
        rw [harith, List.flatten_cons, List.take_append_eq_append_take, htk,
          List.append_assoc]
      · simp only [recvAllGo, if_pos hlt, if_neg hpack, if_neg hfit]
        rw [List.flatten_cons, List.take_append_eq_append_take,
          show (n - (data.length : Int)).toNat - c.length = 0 by omega]
        simp
    · simp only [recvAllGo, if_neg hlt]
      rw [show (n - (data.length : Int)).toNat = 0 by omega]
      simp

/-- Claim C2: if the stream delivers at least `n` bytes, in arbitrarily small
nonempty chunks, `recv_all(conn, n)` returns exactly the first `n` delivered
bytes in order — never a silent short read, never more than `n` bytes —
whatever terminal condition follows the delivered bytes. -/
theorem recv_all_small_chunks_exact (n : Nat) (chunks : List (List Nat)) (term : Term)
    (hne : ∀ c ∈ chunks, c ≠ []) (hen : n ≤ chunksTotal chunks) :
    (recv_all (n : Int) chunks term).result = some (chunks.flatten.take n) ∧
    (chunks.flatten.take n).length = n := by
  constructor
  · rw [recv_all, recvAllGo_result_of_enough term chunks [] (n : Int) hne
      (by simp only [List.length_nil, Nat.cast_zero, zero_add]; exact_mod_cast hen)]
    simp
  · rw [List.length_take, List.length_flatten]
    have h1 : chunksTotal chunks = (chunks.map List.length).sum := rfl
    omega

theorem recv_all_small_chunks_exact_witness :
    (∀ c ∈ ([[1], [2, 3], [4, 5]] : List (List Nat)), c ≠ []) ∧
    4 ≤ chunksTotal [[1], [2, 3], [4, 5]] ∧
    (recv_all (4 : Int) [[1], [2, 3], [4, 5]] Term.closed).result
      = some (([[1], [2, 3], [4, 5]] : List (List Nat)).flatten.take 4) ∧
    ((([[1], [2, 3], [4, 5]] : List (List Nat)).flatten.take 4)).length = 4 :=
  ⟨by decide, by decide,
    (recv_all_small_chunks_exact 4 [[1], [2, 3], [4, 5]] Term.closed
      (by decide) (by decide)).1,
    (recv_all_small_chunks_exact 4 [[1], [2, 3], [4, 5]] Term.closed
      (by decide) (by decide)).2⟩

/-- Short-delivery lemma: when the schedule runs out before
`n - len(data)` further bytes arrive, the loop returns `None` — it never
returns fewer than `n` bytes silently — whichever terminal condition
(peer close or `socket.error`) ends the schedule. -/
theorem recvAllGo_none_of_short (term : Term) :
    ∀ (chunks : List (List Nat)) (data : List Nat) (n : Int),
      (∀ c ∈ chunks, c ≠ []) →
      (data.length : Int) + (chunksTotal chunks : Int) < n →
      (recvAllGo n chunks term data).result = none := by
  intro chunks
  induction chunks with
  | nil =>
    intro data n _ htot
    rw [chunksTotal_nil] at htot
    have hlt : (data.length : Int) < n := by omega
    simp only [recvAllGo, if_pos hlt]
    cases term <;> rfl
  | cons c rest ih =>
    intro data n hne htot
    have hc : c ≠ [] := hne c (List.mem_cons_self c rest)
    have htot' : (data.length : Int) + (c.length : Int) + (chunksTotal rest : Int) < n := by
      rw [chunksTotal_cons] at htot; push_cast at htot; omega
    have hlt : (data.length : Int) < n := by
      have : (0 : Int) ≤ (chunksTotal rest : Int) := Int.natCast_nonneg _
      omega
    have hfit : c.length ≤ (n - (data.length : Int)).toNat := by omega
    have htk : c.take (n - (data.length : Int)).toNat = c := List.take_of_length_le hfit
    have hceq : ¬c.isEmpty = true := fun hh => hc (List.isEmpty_iff.mp hh)
    simp only [recvAllGo, if_pos hlt, htk, if_neg hceq, if_pos hfit]
    exact ih (data ++ c) n (fun x hx => hne x (List.mem_cons_of_mem c hx))
      (by simp only [List.length_append]; push_cast; omega)

/-- Counterexample to claim C3 as stated: after delivering 2 of the 4
requested bytes, peer close and transport fault produce the *same*
observable outcome of `recv_all` — the value `None` — so the caller cannot
distinguish `ConnectionClosed` from `ConnectionError`. -/
theorem recv_all_close_error_same_result :
    recv_all 4 [[1, 2]] Term.closed = recv_all 4 [[1, 2]] Term.ioError ∧
    (recv_all 4 [[1, 2]] Term.closed).result = none := by
  decide

/-- Claim C3 (amended): if the schedule delivers only `k < n` bytes before
its terminal condition, `recv_all(conn, n)` returns `None` — never a silent
short result — but that `None` is identical for peer close and for a
`socket.error` fault, so the two conditions are not distinguishable by the
caller. -/
theorem recv_all_none_on_short_delivery (n : Int) (chunks : List (List Nat))
    (hne : ∀ c ∈ chunks, c ≠ []) (hsh : (chunksTotal chunks : Int) < n) :
    (recv_all n chunks Term.closed).result = none ∧
    recv_all n chunks Term.closed = recv_all n chunks Term.ioError := by
  refine ⟨?_, recvAllGo_term_irrelevant n chunks Term.closed Term.ioError []⟩
  rw [recv_all]
  exact recvAllGo_none_of_short Term.closed chunks [] n hne
    (by simp only [List.length_nil, Nat.cast_zero, zero_add]; omega)

theorem recv_all_none_on_short_delivery_witness :
    (∀ c ∈ ([[1], [2, 3]] : List (List Nat)), c ≠ []) ∧
    (chunksTotal [[1], [2, 3]] : Int) < 7 ∧
    ((recv_all 7 [[1], [2, 3]] Term.closed).result = none ∧
      recv_all 7 [[1], [2, 3]] Term.closed = recv_all 7 [[1], [2, 3]] Term.ioError) :=
  ⟨by decide, by decide,
    recv_all_none_on_short_delivery 7 [[1], [2, 3]] (by decide) (by decide)⟩

/-- Claim C9: for `n ≤ 0` the `while len(data) < n` guard fails at once, so
`recv_all(conn, n)` returns the empty byte string having performed no
`conn.recv` call at all — it can signal neither closure nor error,
whatever the connection would have delivered. -/
theorem recv_all_nonpositive (n : Int) (hn : n ≤ 0)
    (chunks : List (List Nat)) (term : Term) :
    recv_all n chunks term = ⟨some [], 0⟩ := by
  have hguard : ¬((([] : List Nat).length : Int) < n) := by
    simp only [List.length_nil, Nat.cast_zero]; omega
  cases chunks <;> simp only [recv_all, recvAllGo, if_neg hguard]

theorem recv_all_nonpositive_witness :
    (-3 : Int) ≤ 0 ∧ recv_all (-3) [[1, 2], [3]] Term.ioError = ⟨some [], 0⟩ :=
  ⟨by decide, recv_all_nonpositive (-3) (by decide) [[1, 2], [3]] Term.ioError⟩

/-! ## Connection manager: `connect_to_server` (client_cv.py)

```
attempt = 0
while attempt < max_attempts:
    try:
        ... socket(); settimeout(5); connect((host, port)); return clientsocket
    except socket.error as e:
        attempt += 1
        if attempt < max_attempts:
            ...; time.sleep(2)
raise Exception("Failed to connect to server after multiple attempts")
```

The transport is modelled by an oracle `outcomes : Nat → Bool` giving the
result of the i-th `connect` call.  The loop body runs exactly
`max(0, max_attempts - attempt)` more times when every attempt fails, so the
recursion is on `remaining = (max_attempts - attempt).toNat`, keeping the
attempt index for the oracle; the post-increment sleep test
`attempt + 1 < max_attempts` is equivalent to `remaining ≠ 1`, i.e. to the
predecessor `remaining` count being nonzero. -/

/-- Observable outcome of one `connect_to_server` call: whether a socket was
returned (`connected = true`) or the final `raise` ran (`connected = false`),
how many transport-level `connect` attempts were made, and how many
`time.sleep(2)` backoff sleeps were performed. -/
structure ConnectResult where
  connected : Bool
  attempts : Nat
  sleeps : Nat
  deriving DecidableEq, Repr

/-- The retry loop of `connect_to_server`, with `attempt` the current index
into the outcome oracle and `remaining = (max_attempts - attempt).toNat`
iterations left. -/
def connectGo (outcomes : Nat → Bool) : Nat → Nat → ConnectResult
  | _, 0 => ⟨false, 0, 0⟩
  | attempt, remaining + 1 =>
    if outcomes attempt then ⟨true, 1, 0⟩
    else
      let r := connectGo outcomes (attempt + 1) remaining
      ⟨r.connected, r.attempts + 1, r.sleeps + if remaining = 0 then 0 else 1⟩

/-- `connect_to_server(host, port, max_attempts)`: the loop starts at
`attempt = 0` and runs while `attempt < max_attempts`. -/
def connect_to_server (outcomes : Nat → Bool) (maxAttempts : Int) : ConnectResult :=
  connectGo outcomes 0 maxAttempts.toNat

theorem connectGo_attempts_le (outcomes : Nat → Bool) :
    ∀ (remaining attempt : Nat), (connectGo outcomes attempt remaining).attempts ≤ remaining := by
  intro remaining
  induction remaining with
  | zero => intro attempt; simp [connectGo]
  | succ m ih =>
    intro attempt
    by_cases h : outcomes attempt = true
    · simp [connectGo, h]
    · simp only [connectGo, if_neg h]
      exact Nat.succ_le_succ (ih (attempt + 1))

theorem connectGo_sleeps_eq (outcomes : Nat → Bool) :
    ∀ (remaining attempt : Nat),
      (connectGo outcomes attempt remaining).sleeps
        = (connectGo outcomes attempt remaining).attempts - 1 := by
  intro remaining
  induction remaining with
  | zero => intro attempt; simp [connectGo]
  | succ m ih =>
    intro attempt
    by_cases h : outcomes attempt = true
    · simp [connectGo, h]
    · simp only [connectGo, if_neg h]
      rcases Nat.eq_zero_or_pos m with hm | hm
      · subst hm; simp [connectGo]
      · have hpos : 1 ≤ (connectGo outcomes (attempt + 1) m).attempts := by
          obtain ⟨m', rfl⟩ := Nat.exists_eq_add_of_lt hm
          by_cases h2 : outcomes (attempt + 1) = true <;>
            simp [connectGo, h2, Nat.succ_le_succ]
        have hm0 : ¬m = 0 := by omega
        simp only [if_neg hm0, ih (attempt + 1)]
        omega

theorem connectGo_all_fail (outcomes : Nat → Bool) :
    ∀ (remaining attempt : Nat),
      (∀ i, attempt ≤ i → i < attempt + remaining → outcomes i = false) →
      connectGo outcomes attempt remaining = ⟨false, remaining, remaining - 1⟩ := by
  intro remaining
  induction remaining with
  | zero => intro attempt _; rfl
  | succ m ih =>
    intro attempt hfail
    have h0 : outcomes attempt = false := hfail attempt le_rfl (by omega)
    simp only [connectGo, h0, Bool.false_eq_true, if_false]
    rw [ih (attempt + 1) (fun i h1 h2 => hfail i (by omega) (by omega))]
    rcases Nat.eq_zero_or_pos m with hm | hm
    · subst hm; rfl
    · have hm0 : ¬m = 0 := by omega
      simp only [if_neg hm0]
      refine congrArg₂ _ rfl ?_ |>.trans rfl
      omega

/-- Claim C4: with `max_attempts = A ≥ 1`, the loop makes at most `A`
transport connect attempts; the number of constant-interval backoff sleeps
is one less than the number of attempts (so at most `A - 1`, never after the
last attempt); if all `A` attempts fail it makes exactly `A` attempts,
`A - 1` sleeps, and raises (`connected = false`); if the first attempt
succeeds it makes exactly 1 attempt and no sleep. -/
theorem connect_retry_bounded (outcomes : Nat → Bool) (A : Int) (hA : 1 ≤ A) :
    (connect_to_server outcomes A).attempts ≤ A.toNat ∧
    (connect_to_server outcomes A).sleeps
      = (connect_to_server outcomes A).attempts - 1 ∧
    (connect_to_server outcomes A).sleeps ≤ A.toNat - 1 ∧
    ((∀ i : Nat, (i : Int) < A → outcomes i = false) →
      connect_to_server outcomes A = ⟨false, A.toNat, A.toNat - 1⟩) ∧
    (outcomes 0 = true → connect_to_server outcomes A = ⟨true, 1, 0⟩) := by
  have hatt := connectGo_attempts_le outcomes A.toNat 0
  have hsl := connectGo_sleeps_eq outcomes A.toNat 0
  refine ⟨hatt, hsl, by rw [connect_to_server, hsl]; omega, ?_, ?_⟩
  · intro hfail
    exact connectGo_all_fail outcomes A.toNat 0
      (fun i _ hi => hfail i (by omega))
  · intro h0
    have h1 : ∃ m, A.toNat = m + 1 := ⟨A.toNat - 1, by omega⟩
    obtain ⟨m, hm⟩ := h1
    rw [connect_to_server, hm]
    simp [connectGo, h0]

theorem connect_retry_bounded_witness :
    (1 : Int) ≤ 3 ∧
    ((connect_to_server (fun _ => false) 3).attempts ≤ (3 : Int).toNat ∧
      (connect_to_server (fun _ => false) 3).sleeps
        = (connect_to_server (fun _ => false) 3).attempts - 1 ∧
      (connect_to_server (fun _ => false) 3).sleeps ≤ (3 : Int).toNat - 1 ∧
      ((∀ i : Nat, (i : Int) < 3 → (fun _ => false) i = false) →
        connect_to_server (fun _ => false) 3 = ⟨false, (3 : Int).toNat, (3 : Int).toNat - 1⟩) ∧
      ((fun _ => false) 0 = true → connect_to_server (fun _ => false) 3 = ⟨true, 1, 0⟩)) :=
  ⟨by decide, connect_retry_bounded (fun _ => false) 3 (by decide)⟩

/-- Claim C10: with `max_attempts ≤ 0` the `while attempt < max_attempts`
guard is false at entry, so `connect_to_server` reaches the final `raise`
immediately: zero transport connect attempts and zero backoff sleeps. -/
theorem connect_nonpositive_budget (outcomes : Nat → Bool) (A : Int) (hA : A ≤ 0) :
    connect_to_server outcomes A = ⟨false, 0, 0⟩ := by
  rw [connect_to_server, show A.toNat = 0 by omega]
  rfl

theorem connect_nonpositive_budget_witness :
    (-2 : Int) ≤ 0 ∧ connect_to_server (fun _ => true) (-2) = ⟨false, 0, 0⟩ :=
  ⟨by decide, connect_nonpositive_budget (fun _ => true) (-2) (by decide)⟩

/-! ## Capture loop (client_cv.py, `main`)

```
while True:
    ret, frame = cap.read()
    if not ret: print(...); continue
    if not send_frame(clientsocket, frame):
        try: clientsocket.close(); clientsocket = connect_to_server()
        except Exception: print(...); break
```

Each iteration is scripted by what the collaborators do: whether `cap.read`
returns a frame (identified by a number), whether `send_frame` succeeds on it,
and whether the `connect_to_server()` reconnect call — invoked only after a
failed send — succeeds.  The loop's observable trace records each wire send
attempt and each reconnect call. -/

/-- Result of `cap.read()` for one iteration: failure (`ret` falsy) or a
captured frame identified by `id`. -/
inductive CapResult
  | fail
  | frame (id : Nat)
  deriving DecidableEq, Repr

/-- Result of `send_frame` for one iteration (socket healthy or
`socket.error`/`ConnectionResetError` caught inside `send_frame`). -/
inductive SendStatus
  | ok
  | sockFail
  deriving DecidableEq, Repr

/-- Script for one capture-loop iteration. -/
structure Iter where
  cap : CapResult
  send : SendStatus
  reconnectOk : Bool
  deriving DecidableEq, Repr

/-- Observable event of the capture loop: a wire send attempt for a frame
(with its outcome) or a `connect_to_server()` reconnect call (with its
outcome). -/
inductive Ev
  | sendAttempt (id : Nat) (ok : Bool)
  | reconnect (success : Bool)
  deriving DecidableEq, Repr

/-- The capture loop over a finite script (an empty script models external
cancellation of the `while True`).  A failed capture skips the iteration; a
failed send triggers exactly one reconnect call; a failed reconnect breaks
the loop. -/
def captureLoop : List Iter → List Ev
  | [] => []
  | ⟨CapResult.fail, _, _⟩ :: rest => captureLoop rest
  | ⟨CapResult.frame id, SendStatus.ok, _⟩ :: rest =>
    Ev.sendAttempt id true :: captureLoop rest
  | ⟨CapResult.frame id, SendStatus.sockFail, r⟩ :: rest =>
    Ev.sendAttempt id false :: Ev.reconnect r ::
      (if r then captureLoop rest else [])

/-- Frame ids offered to the wire, in trace order. -/
def sendIds : List Ev → List Nat
  | [] => []
  | Ev.sendAttempt id _ :: t => id :: sendIds t
  | Ev.reconnect _ :: t => sendIds t

/-- Frame ids the capture source produced, in script order. -/
def capturedIds : List Iter → List Nat
  | [] => []
  | ⟨CapResult.frame id, _, _⟩ :: rest => id :: capturedIds rest
  | ⟨CapResult.fail, _, _⟩ :: rest => capturedIds rest

/-- The drop-on-failure discipline, stated over traces: sends either succeed
and the loop goes on, or fail and are followed by exactly one reconnect
event — after a successful reconnect the loop goes on, after a failed one
the trace ends immediately. -/
inductive ClientTrace : List Ev → Prop
  | nil : ClientTrace []
  | sendOk (id : Nat) (t : List Ev) :
      ClientTrace t → ClientTrace (Ev.sendAttempt id true :: t)
  | sendFailReconnected (id : Nat) (t : List Ev) :
      ClientTrace t →
      ClientTrace (Ev.sendAttempt id false :: Ev.reconnect true :: t)
  | sendFailFatal (id : Nat) :
      ClientTrace [Ev.sendAttempt id false, Ev.reconnect false]

theorem captureLoop_clientTrace : ∀ s : List Iter, ClientTrace (captureLoop s) := by
  intro s
  induction s with
  | nil => exact ClientTrace.nil
  | cons it rest ih =>
    obtain ⟨cap, send, r⟩ := it
    cases cap with
    | fail => exact ih
    | frame id =>
      cases send with
      | ok => exact ClientTrace.sendOk id _ ih
      | sockFail =>
        cases r with
        | true => exact ClientTrace.sendFailReconnected id _ ih
        | false => exact ClientTrace.sendFailFatal id

theorem captureLoop_sendIds_in_order :
    ∀ s : List Iter, sendIds (captureLoop s) <+: capturedIds s := by
  intro s
  induction s with
  | nil => exact List.nil_prefix
  | cons it rest ih =>
    obtain ⟨cap, send, r⟩ := it
    cases cap with
    | fail => exact ih
    | frame id =>
      cases send with
      | ok =>
        simpa only [captureLoop, sendIds, capturedIds] using
          (List.cons_prefix_cons).2 ⟨rfl, ih⟩
      | sockFail =>
        cases r with
        | true =>
          simpa only [captureLoop, sendIds, capturedIds, if_true] using
            (List.cons_prefix_cons).2 ⟨rfl, ih⟩
        | false =>
          simpa only [captureLoop, sendIds, capturedIds, if_false] using
            (List.cons_prefix_cons).2 ⟨rfl, List.nil_prefix⟩

/-- Claim C5: the capture loop's trace obeys the drop-on-failure discipline —
every failed send is followed by exactly one reconnect call, a failed
reconnect ends the trace with no further recovery — and the frame ids sent
on the wire are an in-order prefix of the captured ids, so the message after
a reconnect carries the next captured frame and (captured ids being pairwise
distinct) no frame is ever retransmitted or duplicated. -/
theorem capture_loop_drop_on_failure (s : List Iter) :
    ClientTrace (captureLoop s) ∧
    sendIds (captureLoop s) <+: capturedIds s ∧
    ((capturedIds s).Nodup → (sendIds (captureLoop s)).Nodup) :=
  ⟨captureLoop_clientTrace s, captureLoop_sendIds_in_order s,
    fun hnd => hnd.sublist (captureLoop_sendIds_in_order s).sublist⟩

theorem capture_loop_drop_on_failure_witness :
    (capturedIds [⟨CapResult.frame 1, SendStatus.sockFail, true⟩,
        ⟨CapResult.fail, SendStatus.ok, true⟩,
        ⟨CapResult.frame 2, SendStatus.ok, true⟩]).Nodup ∧
    ClientTrace (captureLoop [⟨CapResult.frame 1, SendStatus.sockFail, true⟩,
        ⟨CapResult.fail, SendStatus.ok, true⟩,
        ⟨CapResult.frame 2, SendStatus.ok, true⟩]) ∧
    sendIds (captureLoop [⟨CapResult.frame 1, SendStatus.sockFail, true⟩,
        ⟨CapResult.fail, SendStatus.ok, true⟩,
        ⟨CapResult.frame 2, SendStatus.ok, true⟩])
      <+: capturedIds [⟨CapResult.frame 1, SendStatus.sockFail, true⟩,
        ⟨CapResult.fail, SendStatus.ok, true⟩,
        ⟨CapResult.frame 2, SendStatus.ok, true⟩] ∧
    (sendIds (captureLoop [⟨CapResult.frame 1, SendStatus.sockFail, true⟩,
        ⟨CapResult.fail, SendStatus.ok, true⟩,
        ⟨CapResult.frame 2, SendStatus.ok, true⟩])).Nodup :=
  ⟨by decide,
    (capture_loop_drop_on_failure _).1,
    (capture_loop_drop_on_failure _).2.1,
    (capture_loop_drop_on_failure _).2.2 (by decide)⟩

/-! ## Server loop (server_cv.py, `receive_frame` and `main`)

`receive_frame` returns `None` on every failure path — header `recv_all`
returning `None` (close or fault), payload `recv_all` returning `None`,
`pickle.loads` raising `UnpicklingError`, `cv2.imdecode` returning `None` —
and the frame otherwise.  `main` runs

```
while True:
    frame = receive_frame(conn)
    if frame is None: print(...); break
    cv2.imshow('Frame', frame)
    if cv2.waitKey(1) & 0xFF == ord('q'): break
```

Each iteration is scripted by the outcome of `receive_frame` and whether the
display sink reports a quit keypress. -/

/-- How one `receive_frame` call resolves. -/
inductive RecvFrameOutcome
  | headerFail
  | payloadFail
  | unpickleFail
  | decodeFail
  | frame (id : Nat)
  deriving DecidableEq, Repr

/-- `receive_frame`'s return value for a scripted outcome: the frame, or
`None` on any of the four failure paths. -/
def receiveFrame : RecvFrameOutcome → Option Nat
  | RecvFrameOutcome.frame id => some id
  | _ => none

/-- Script for one server-loop iteration. -/
structure SIter where
  outcome : RecvFrameOutcome
  quit : Bool
  deriving DecidableEq, Repr

/-- The server loop over a finite script: the ids handed to the display sink,
in order.  A `None` from `receive_frame` breaks the loop; a displayed frame
followed by a quit keypress also breaks it. -/
def serverLoop : List SIter → List Nat
  | [] => []
  | it :: rest =>
    match receiveFrame it.outcome with
    | none => []
    | some id => id :: (if it.quit then [] else serverLoop rest)

/-- Ids of the frames a script would deliver. -/
def sFrameIds (s : List SIter) : List Nat :=
  s.filterMap (fun it => receiveFrame it.outcome)

/-- Kernel of claims C6/C7 on the server side: as soon as `receive_frame`
fails — whichever of the four failure paths — the loop stops; everything
scheduled after the failing iteration is never processed. -/
theorem serverLoop_stops_at_failure :
    ∀ (pre : List SIter) (bad : SIter) (post : List SIter),
      (∀ j ∈ pre, (receiveFrame j.outcome).isSome = true ∧ j.quit = false) →
      receiveFrame bad.outcome = none →
      serverLoop (pre ++ bad :: post) = sFrameIds pre := by
  intro pre
  induction pre with
  | nil =>
    intro bad post _ hbad
    simp only [List.nil_append, serverLoop, hbad, sFrameIds, List.filterMap_nil]
  | cons it rest ih =>
    intro bad post hgood hbad
    obtain ⟨hsome, hq⟩ := hgood it (List.mem_cons_self it rest)
    obtain ⟨id, hid⟩ := Option.isSome_iff_exists.mp hsome
    have hrest := ih bad post (fun j hj => hgood j (List.mem_cons_of_mem it hj)) hbad
    simp [serverLoop, hid, hq, sFrameIds] at hrest ⊢
    exact hrest

/-- Claim C7: in the server loop, any failure reported by `receive_frame` —
end-of-stream or I/O fault on the 4-byte header read, the same on the payload
read, an unpickling error, or a decode failure — terminates the loop: the
frames displayed are exactly those of the healthy prefix, and nothing
scheduled after the failure is ever read or displayed. -/
theorem server_loop_stops_on_failure (pre : List SIter) (bad : SIter)
    (post : List SIter)
    (hgood : ∀ j ∈ pre, (receiveFrame j.outcome).isSome = true ∧ j.quit = false)
    (hbad : receiveFrame bad.outcome = none) :
    serverLoop (pre ++ bad :: post) = sFrameIds pre :=
  serverLoop_stops_at_failure pre bad post hgood hbad

theorem server_loop_stops_on_failure_witness :
    (∀ j ∈ ([⟨RecvFrameOutcome.frame 3, false⟩] : List SIter),
      (receiveFrame j.outcome).isSome = true ∧ j.quit = false) ∧
    receiveFrame (⟨RecvFrameOutcome.headerFail, false⟩ : SIter).outcome = none ∧
    serverLoop ([⟨RecvFrameOutcome.frame 3, false⟩] ++
        ⟨RecvFrameOutcome.headerFail, false⟩ :: [⟨RecvFrameOutcome.frame 9, false⟩])
      = sFrameIds [⟨RecvFrameOutcome.frame 3, false⟩] :=
  ⟨by decide, by decide,
    server_loop_stops_on_failure [⟨RecvFrameOutcome.frame 3, false⟩]
      ⟨RecvFrameOutcome.headerFail, false⟩ [⟨RecvFrameOutcome.frame 9, false⟩]
      (by decide) (by decide)⟩

/-- Inserting a failed-capture iteration anywhere in a capture-loop script
leaves the loop's trace unchanged: the bad frame is skipped and the session
continues exactly as without it. -/
theorem captureLoop_skips_capture_failure :
    ∀ (pre post : List Iter) (sd : SendStatus) (r : Bool),
      captureLoop (pre ++ ⟨CapResult.fail, sd, r⟩ :: post) = captureLoop (pre ++ post) := by
  intro pre
  induction pre with
  | nil => intro post sd r; rfl
  | cons it rest ih =>
    intro post sd r
    obtain ⟨cap, send, rc⟩ := it
    cases cap with
    | fail => simpa [captureLoop] using ih post sd r
    | frame id =>
      cases send with
      | ok => simp [captureLoop, ih post sd r]
      | sockFail =>
        cases rc with
        | true => simp [captureLoop, ih post sd r]
        | false => simp [captureLoop]

/-- Counterexample to claim C6 as stated: in the server loop a decode failure
is not skipped — after frames `[frame 1, decodeFail, frame 2]` the server
displays only `[1]` and the session is over; were the bad frame skipped and
the loop continued, frame `2` would also be displayed (`[1, 2]`). -/
theorem server_decode_failure_not_skipped :
    serverLoop [⟨RecvFrameOutcome.frame 1, false⟩, ⟨RecvFrameOutcome.decodeFail, false⟩,
        ⟨RecvFrameOutcome.frame 2, false⟩] = [1] ∧
    serverLoop [⟨RecvFrameOutcome.frame 1, false⟩, ⟨RecvFrameOutcome.decodeFail, false⟩,
        ⟨RecvFrameOutcome.frame 2, false⟩] ≠ [1, 2] := by
  decide

/-- Claim C6 (amended): per-frame *capture* failures in the client loop are
recovered locally — the frame is skipped and the loop continues as if the
iteration had not happened — but in the server loop a per-frame *decode*
failure is fatal: the loop terminates at the failing frame instead of
skipping it. -/
theorem per_frame_failure_policy :
    (∀ (pre post : List Iter) (sd : SendStatus) (r : Bool),
      captureLoop (pre ++ ⟨CapResult.fail, sd, r⟩ :: post) = captureLoop (pre ++ post)) ∧
    (∀ (pre post : List SIter) (q : Bool),
      (∀ j ∈ pre, (receiveFrame j.outcome).isSome = true ∧ j.quit = false) →
      serverLoop (pre ++ ⟨RecvFrameOutcome.decodeFail, q⟩ :: post) = sFrameIds pre) :=
  ⟨captureLoop_skips_capture_failure,
    fun pre post q hgood => serverLoop_stops_at_failure pre ⟨RecvFrameOutcome.decodeFail, q⟩
      post hgood rfl⟩

theorem per_frame_failure_policy_witness :
    captureLoop ([⟨CapResult.frame 5, SendStatus.ok, true⟩] ++
        ⟨CapResult.fail, SendStatus.ok, true⟩ :: [⟨CapResult.frame 6, SendStatus.ok, true⟩])
      = captureLoop ([⟨CapResult.frame 5, SendStatus.ok, true⟩] ++
        [⟨CapResult.frame 6, SendStatus.ok, true⟩]) ∧
    (∀ j ∈ ([⟨RecvFrameOutcome.frame 3, false⟩] : List SIter),
      (receiveFrame j.outcome).isSome = true ∧ j.quit = false) ∧
    serverLoop ([⟨RecvFrameOutcome.frame 3, false⟩] ++
        ⟨RecvFrameOutcome.decodeFail, false⟩ :: [⟨RecvFrameOutcome.frame 4, false⟩])
      = sFrameIds [⟨RecvFrameOutcome.frame 3, false⟩] :=
  ⟨per_frame_failure_policy.1 [⟨CapResult.frame 5, SendStatus.ok, true⟩]
      [⟨CapResult.frame 6, SendStatus.ok, true⟩] SendStatus.ok true,
    by decide,
    per_frame_failure_policy.2 [⟨RecvFrameOutcome.frame 3, false⟩]
      [⟨RecvFrameOutcome.frame 4, false⟩] false (by decide)⟩

end LunaCam
